import Mathlib

/-!
Verification of the p4analyzer core against its natural-language specification.

The Rust sources are shallowly embedded: each Rust struct becomes a Lean
structure capturing its logical state, each method a pure function (stateful
methods return the updated state), fallible paths return `Option`, and a
`none`/`Option` result models a Rust `panic!`/`unwrap` failure.
-/

namespace P4A

/-- Rust `Result<T, E>`: `ok` is `Ok`, `err` is `Err`. -/
inductive RResult (T E : Type) where
| ok (value : T)
| err (e : E)
deriving DecidableEq

/-- Rust `FutureCompletionSourceError` (both `futures.rs` and
`futures_extensions.rs`): the single variant `Invalid`, produced when the
underlying future has already completed. -/
inductive FutureCompletionSourceError where
| Invalid
deriving DecidableEq

/-! ## `analyzer-abstractions/src/futures.rs` -/

namespace Futures

/-- State of `futures.rs::FutureCompletionSource<T, TError>`: the `completed`
atomic flag, the `awaiting_count` atomic counter, and the `value` cell
(`Option<Result<T, TError>>`).  The `on_completed : Event` field carries no
sequential state; its notification behaviour is modelled separately in the
interleaved-execution model below. -/
structure FutureCompletionSource (T E : Type) where
completed : Bool
awaiting_count : Nat
value : Option (RResult T E)
deriving DecidableEq

/-- Rust `FutureCompletionSource::new()`. -/
def new (T E : Type) : FutureCompletionSource T E :=
  { completed := false, awaiting_count := 0, value := none }

/-- Rust `FutureCompletionSource::new_with_value(value)`. -/
def new_with_value {T E : Type} (value : T) : FutureCompletionSource T E :=
  { completed := true, awaiting_count := 0, value := some (RResult.ok value) }

/-- Rust `FutureCompletionSource::set_inner_value(result)`: rejected with
`Invalid` when `completed` is already set; otherwise stores the result and
raises the `completed` flag.  Returns the Rust return value paired with the
updated state. -/
def set_inner_value {T E : Type} (s : FutureCompletionSource T E)
    (result : RResult T E) :
    RResult Unit FutureCompletionSourceError × FutureCompletionSource T E :=
  if s.completed then
    (RResult.err FutureCompletionSourceError.Invalid, s)
  else
    (RResult.ok (), { s with value := some result, completed := true })

/-- Rust `FutureCompletionSource::set_value(value)`. -/
def set_value {T E : Type} (s : FutureCompletionSource T E) (value : T) :
    RResult Unit FutureCompletionSourceError × FutureCompletionSource T E :=
  set_inner_value s (RResult.ok value)

/-- Rust `FutureCompletionSource::set_err(err)`. -/
def set_err {T E : Type} (s : FutureCompletionSource T E) (e : E) :
    RResult Unit FutureCompletionSourceError × FutureCompletionSource T E :=
  set_inner_value s (RResult.err e)

/-- Rust `FutureCompletionSource::get_inner_value()`: reads the cell and
unwraps the `Option`; `none` here models the `unwrap` panic. -/
def get_inner_value {T E : Type} (s : FutureCompletionSource T E) :
    Option (RResult T E) :=
  s.value

/-- Outcome of one call to `future()`: either the fast path returned a result
immediately, or the caller registered as a waiter and suspended, leaving the
source in the given state. -/
inductive FutureOutcome (T E : Type) where
| immediate (r : RResult T E)
| suspended (s : FutureCompletionSource T E)
deriving DecidableEq

/-- Rust `FutureCompletionSource::future()`: if `completed` is set, return the
stored result at once (the `unwrap` inside `get_inner_value` panics — `none` —
if the cell is empty); otherwise increment `awaiting_count` and suspend. -/
def future {T E : Type} (s : FutureCompletionSource T E) :
    Option (FutureOutcome T E) :=
  if s.completed then
    (get_inner_value s).map FutureOutcome.immediate
  else
    some (FutureOutcome.suspended { s with awaiting_count := s.awaiting_count + 1 })

end Futures

/-! ## `analyzer-abstractions/src/futures_extensions.rs` -/

namespace FuturesExt

/-- State of `futures_extensions.rs::FutureCompletionSource<T, TError>`: the
`completed` flag and the `value` cell.  This copy has no `awaiting_count`
field (its `set_inner_value` notifies `usize::MAX` listeners instead). -/
structure FutureCompletionSource (T E : Type) where
completed : Bool
value : Option (RResult T E)
deriving DecidableEq

/-- Rust `FutureCompletionSource::new()` (`futures_extensions.rs`). -/
def new (T E : Type) : FutureCompletionSource T E :=
  { completed := false, value := none }

/-- Rust `FutureCompletionSource::new_with_value(value)`
(`futures_extensions.rs`). -/
def new_with_value {T E : Type} (value : T) : FutureCompletionSource T E :=
  { completed := true, value := some (RResult.ok value) }

/-- Rust `FutureCompletionSource::set_inner_value(result)`
(`futures_extensions.rs`): identical logic to the `futures.rs` copy. -/
def set_inner_value {T E : Type} (s : FutureCompletionSource T E)
    (result : RResult T E) :
    RResult Unit FutureCompletionSourceError × FutureCompletionSource T E :=
  if s.completed then
    (RResult.err FutureCompletionSourceError.Invalid, s)
  else
    (RResult.ok (), { s with value := some result, completed := true })

/-- Rust `FutureCompletionSource::set_value(value)` (`futures_extensions.rs`). -/
def set_value {T E : Type} (s : FutureCompletionSource T E) (value : T) :
    RResult Unit FutureCompletionSourceError × FutureCompletionSource T E :=
  set_inner_value s (RResult.ok value)

/-- Rust `FutureCompletionSource::set_err(err)` (`futures_extensions.rs`). -/
def set_err {T E : Type} (s : FutureCompletionSource T E) (e : E) :
    RResult Unit FutureCompletionSourceError × FutureCompletionSource T E :=
  set_inner_value s (RResult.err e)

/-- Rust `FutureCompletionSource::get_inner_value()`
(`futures_extensions.rs`); `none` models the `unwrap` panic. -/
def get_inner_value {T E : Type} (s : FutureCompletionSource T E) :
    Option (RResult T E) :=
  s.value

/-- Outcome of one call to `future()` (`futures_extensions.rs`). -/
inductive FutureOutcome (T E : Type) where
| immediate (r : RResult T E)
| suspended (s : FutureCompletionSource T E)
deriving DecidableEq

/-- Rust `FutureCompletionSource::future()` (`futures_extensions.rs`): fast
path when completed, otherwise suspend (this copy does not count waiters). -/
def future {T E : Type} (s : FutureCompletionSource T E) :
    Option (FutureOutcome T E) :=
  if s.completed then
    (get_inner_value s).map FutureOutcome.immediate
  else
    some (FutureOutcome.suspended s)

/-- Modelled from the spec: `workspace.rs::File::set_compiled_unit` calls a
`state()` method of the `futures_extensions` `FutureCompletionSource`, whose
source is not part of the sampled core.  Per the spec's publishing rule
(§4.2), the method distinguishes a still-Pending source from a Completed one
and exposes the held result: `ready r` when completed, `pending` otherwise. -/
inductive PollState (T E : Type) where
| ready (r : RResult T E)
| pending
deriving DecidableEq

/-- Modelled from the spec: the `state()` accessor of the
`futures_extensions` `FutureCompletionSource` (absent from the sampled
sources; only its caller `File::set_compiled_unit` is present).  It reports
`Poll::Ready(result)` exactly when the source has completed, and
`Poll::Pending` otherwise. -/
def state {T E : Type} (s : FutureCompletionSource T E) : PollState T E :=
  if s.completed then
    match s.value with
    | some r => PollState.ready r
    | none => PollState.pending
  else
    PollState.pending

end FuturesExt

/-! ## `analyzer-host/src/lsp/workspace.rs` -/

namespace Ws

/-- Rust `workspace.rs::IndexError`. -/
inductive IndexError where
| Unexpected
deriving DecidableEq

/-- Rust `workspace.rs`: `type CompiledUnit = ();`. -/
abbrev CompiledUnit : Type := Unit

/-- Rust `workspace.rs::FileState<T: Clone = CompiledUnit>`: the live editor
buffer and the completion source holding the most recent analysis result.
The `Box` around `T` is an identity wrapper and is elided. -/
structure FileState (T : Type) where
buffer : Option String
compiled_unit : FuturesExt.FutureCompletionSource T IndexError
deriving DecidableEq

/-- Initial state installed by Rust `File::new`: no buffer, fresh pending
completion source (the `Arc<RwLock<..>>` wrapper is modelled by explicit
state passing). -/
def FileState.new (T : Type) : FileState T :=
  { buffer := none, compiled_unit := FuturesExt.new T IndexError }

/-- Rust `File::is_open_in_ide`: the source returns `state.buffer == None`
verbatim. -/
def is_open_in_ide {T : Type} (fs : FileState T) : Bool :=
  fs.buffer == none

/-- Rust `File::current_buffer`. -/
def current_buffer {T : Type} (fs : FileState T) : Option String :=
  fs.buffer

/-- Rust `File::get_compiled_unit`: awaits `compiled_unit.future()` (the
`Box` deref-and-clone of the success value is the identity here). -/
def get_compiled_unit {T : Type} (fs : FileState T) :
    Option (FuturesExt.FutureOutcome T IndexError) :=
  FuturesExt.future fs.compiled_unit

/-- Rust `File::set_compiled_unit`: when `compiled_unit.state()` is
`Poll::Ready(Ok(..))` the held boxed value is overwritten in place; when it
is `Poll::Ready(Err(..))` the whole source is replaced with
`new_with_value`; when still pending, `set_value(..).unwrap()` is called —
the `unwrap` panic is modelled by `none`. -/
def set_compiled_unit {T : Type} (fs : FileState T) (cu : T) :
    Option (FileState T) :=
  match FuturesExt.state fs.compiled_unit with
  | FuturesExt.PollState.ready (RResult.ok _) =>
      some { fs with compiled_unit := { fs.compiled_unit with value := some (RResult.ok cu) } }
  | FuturesExt.PollState.ready (RResult.err _) =>
      some { fs with compiled_unit := FuturesExt.new_with_value cu }
  | FuturesExt.PollState.pending =>
      match FuturesExt.set_value fs.compiled_unit cu with
      | (RResult.ok _, s2) => some { fs with compiled_unit := s2 }
      | (RResult.err _, _) => none

/-- Rust `File::open_or_change_buffer`: installs the buffer and republishes
through `set_compiled_unit` under the same write lock. -/
def open_or_change_buffer {T : Type} (fs : FileState T) (buffer : String)
    (cu : T) : Option (FileState T) :=
  set_compiled_unit { fs with buffer := some buffer } cu

/-- Rust `File::close_buffer`. -/
def close_buffer {T : Type} (fs : FileState T) : FileState T :=
  { fs with buffer := none }

/-- One iteration of Rust `workspace.rs::background_parse` for a dequeued
file.  `s1` is the file state observed at the first `is_open_in_ide` check,
`contents` the filesystem fetch result, `parsed` the analysis output, and
`s2` the file state observed at the re-check after fetching and parsing (the
editor may have mutated the file in between).  Returns whether the worker
published (called `set_compiled_unit`) paired with the resulting file state;
`none` models a panic inside `set_compiled_unit`. -/
def background_parse_step {T : Type} (s1 : FileState T)
    (contents : Option String) (parsed : T) (s2 : FileState T) :
    Option (Bool × FileState T) :=
  if is_open_in_ide s1 then
    some (false, s2)
  else
    match contents with
    | none => some (false, s2)
    | some _ =>
        if !is_open_in_ide s2 then
          (set_compiled_unit s2 parsed).map (fun fs => (true, fs))
        else
          some (false, s2)

/-- URIs are modelled as lists of path segments (all under the single
`file://` scheme the sources use). -/
abbrev Uri : Type := List String

/-- Rust `lsp_types::WorkspaceFolder` (the fields `workspace.rs` uses). -/
structure WorkspaceFolder where
name : String
uri : Uri
deriving DecidableEq

/-- Rust `WorkspaceManager`: the `has_workspaces` flag and the workspaces
keyed by root URI.  The `HashMap` becomes an association list; each
`Workspace` is represented by its identifying `workspace_folder` (its files
map and parse queue play no part in routing). -/
structure WorkspaceManager where
has_workspaces : Bool
workspaces : List (Uri × WorkspaceFolder)
deriving DecidableEq

/-- Rust `WorkspaceManager::new`: explicit folders give one workspace per
folder with `has_workspaces = true`; `None` gives a single catch-all
workspace rooted at `file:///` (the empty segment list) with
`has_workspaces = false`. -/
def WorkspaceManager.new (folders : Option (List WorkspaceFolder)) :
    WorkspaceManager :=
  match folders with
  | none =>
      { has_workspaces := false,
        workspaces := [([], { name := "<*>", uri := [] })] }
  | some fs =>
      { has_workspaces := true,
        workspaces := fs.map (fun wf => (wf.uri, wf)) }

/-- Segment-wise prefix test on path-segment lists. -/
def seg_prefix : List String → List String → Bool
| [], _ => true
| _ :: _, [] => false
| b :: bs, t :: ts => b == t && seg_prefix bs ts

/-- Rust `workspace.rs::get_file::is_descendant_path`, built on
`Url::make_relative`.  `make_relative` treats the final path segment of each
URI as a filename: the base `/s1/../sn` has directory `/s1/../s(n-1)`
(`dropLast` of the segment list), and likewise for the target.  It skips the
common prefix of the two directories, emits one `..` per remaining base
directory segment, then appends the target's remaining directory segments
and filename — so the produced relative path starts with `".."` exactly
when the base's directory is not a segment-wise prefix of the target's
directory.  The URIs this program feeds in share the `file://` scheme (so
`make_relative` returns `Some`) and have no trailing slash and no empty or
`..`-leading segments, under which the whole test reduces to: the base with
its final segment dropped is a segment-prefix of the target with its final
segment dropped. -/
def is_descendant_path (base target : Uri) : Bool :=
  seg_prefix base.dropLast target.dropLast

/-- The claim's reading of routing — "the Workspace whose root URI is an
ancestor (path prefix) of the queried URI": a plain segment-prefix test on
the full paths, for comparison with the `make_relative`-based test the code
actually performs. -/
def spec_root_is_ancestor (base target : Uri) : Bool :=
  seg_prefix base target

/-- Rust `WorkspaceManager::get_file`: scans for a workspace whose root is an
ancestor of `uri` and resolves into it; `none` models the
`unreachable!("failed to locate a workspace")` fatal path (the source then
delegates to `Workspace::get_file` on the resolved workspace). -/
def WorkspaceManager.get_file (m : WorkspaceManager) (uri : Uri) :
    Option WorkspaceFolder :=
  (m.workspaces.find? (fun p => is_descendant_path p.1 uri)).map Prod.snd

end Ws

/-! ## Session state machine (`analyzer-host`, crate module `fsm`) -/

namespace Fsm

/-- Rust `LspServerState` as exercised by `tests/unit_tests.rs`. -/
inductive LspServerState where
| ActiveUninitialized
| Initializing
| ActiveInitialized
| ShuttingDown
| Stopped
deriving DecidableEq, BEq

/-- Spec §4.5: a trigger not matching the current state's table is rejected
with a `MethodNotApplicable`-class error. -/
inductive FsmError where
| MethodNotApplicable
deriving DecidableEq

/-- Modelled from the spec: `LspProtocolMachine::set_state` (module `fsm` of
`analyzer-host`, absent from the sampled sources; only its unit tests are
present).  Spec §4.5 transition table: `ActiveUninitialized --initialize-->
Initializing --initialized--> ActiveInitialized --shutdown--> ShuttingDown
--exit--> Stopped`; a repeated `"initialize"` while `Initializing` is
accepted idempotently; a repeated `"initialized"` while `ActiveInitialized`
fails; any unmatched trigger errors with the state unchanged. -/
def set_state (s : LspServerState) (method : String) :
    RResult LspServerState FsmError :=
  match s with
  | LspServerState.ActiveUninitialized =>
      if method = "initialize" then RResult.ok LspServerState.Initializing
      else RResult.err FsmError.MethodNotApplicable
  | LspServerState.Initializing =>
      if method = "initialize" then RResult.ok LspServerState.Initializing
      else if method = "initialized" then RResult.ok LspServerState.ActiveInitialized
      else RResult.err FsmError.MethodNotApplicable
  | LspServerState.ActiveInitialized =>
      if method = "shutdown" then RResult.ok LspServerState.ShuttingDown
      else RResult.err FsmError.MethodNotApplicable
  | LspServerState.ShuttingDown =>
      if method = "exit" then RResult.ok LspServerState.Stopped
      else RResult.err FsmError.MethodNotApplicable
  | LspServerState.Stopped =>
      RResult.err FsmError.MethodNotApplicable

/-- Modelled from the spec: `LspProtocolMachine::is_active` — true for every
state except `Stopped` (spec §4.5). -/
def is_active (s : LspServerState) : Bool :=
  s != LspServerState.Stopped

/-- Applies a trigger sequence, recording for each trigger whether the call
succeeded and the state after it (an erroring trigger leaves the state
unchanged, as `set_state` returns the error without transitioning). -/
def run_triggers (s : LspServerState) : List String → List (Bool × LspServerState)
| [] => []
| m :: ms =>
    match set_state s m with
    | RResult.ok s2 => (true, s2) :: run_triggers s2 ms
    | RResult.err _ => (false, s) :: run_triggers s ms

end Fsm

/-! ## `analyzer-host/src/lsp_impl/active_initialized.rs` -/

namespace Watch

/-- Rust `lsp_types::FileChangeType` constants: `CREATED = 1`, `CHANGED = 2`,
`DELETED = 3`; the newtype admits other numeric values. -/
structure FileEvent where
uri : Ws.Uri
typ : Nat
deriving DecidableEq

/-- Which helper `on_watched_file_change` invokes for one event (the
helpers' filesystem/analyzer effects are external collaborators). -/
inductive WatchAction where
| created_file
| deleted_file
deriving DecidableEq

/-- The per-event `match event.typ` of Rust `on_watched_file_change`:
`CREATED` and `CHANGED` both run `created_file`, `DELETED` runs
`deleted_file`, and every other change type hits
`panic!("Type not supported in 1.17 specification")`, modelled by `none`. -/
def watched_event_action (e : FileEvent) : Option WatchAction :=
  if e.typ = 1 then some WatchAction.created_file
  else if e.typ = 2 then some WatchAction.created_file
  else if e.typ = 3 then some WatchAction.deleted_file
  else none

/-- Rust `on_watched_file_change`: processes the change events in order,
recording the helper invoked for each; `none` models the panic on an
unsupported change type, which aborts the loop. -/
def on_watched_file_change : List FileEvent → Option (List WatchAction)
| [] => some []
| e :: es =>
    match watched_event_action e with
    | some a => (on_watched_file_change es).map (fun acts => a :: acts)
    | none => none

end Watch

/-! ## Reachable states of a `FutureCompletionSource` (futures.rs) -/

namespace Futures

/-- States of `futures.rs::FutureCompletionSource` reachable through its
public operations: the two constructors, the completion calls (`set_value`
and `set_err` both defer to `set_inner_value`), and the waiter registration
performed by a suspending `future()` call. -/
inductive Reachable {T E : Type} : FutureCompletionSource T E → Prop where
| new : Reachable (Futures.new T E)
| new_with_value (v : T) : Reachable (Futures.new_with_value v)
| set (s : FutureCompletionSource T E) (r : RResult T E) :
    Reachable s → Reachable (set_inner_value s r).2
| future_suspend (s s2 : FutureCompletionSource T E) :
    Reachable s → future s = some (FutureOutcome.suspended s2) → Reachable s2

end Futures

namespace FuturesExt

/-- States of the `futures_extensions.rs` `FutureCompletionSource` reachable
through its public operations. -/
inductive Reachable {T E : Type} : FutureCompletionSource T E → Prop where
| new : Reachable (FuturesExt.new T E)
| new_with_value (v : T) : Reachable (FuturesExt.new_with_value v)
| set (s : FutureCompletionSource T E) (r : RResult T E) :
    Reachable s → Reachable (set_inner_value s r).2
| future_suspend (s s2 : FutureCompletionSource T E) :
    Reachable s → future s = some (FutureOutcome.suspended s2) → Reachable s2

end FuturesExt

/-! ## Interleaved execution of `futures.rs::future()` against a completion

`future()` performs three separately scheduled operations — the
`completed.load`, the `awaiting_count.fetch_add`, and the
`on_completed.listen()` registration — before suspending on the listener.
`event_listener::Event::notify(n)` wakes up to `n` listeners that are
registered at the moment of the call; surplus notifications are discarded,
never queued for listeners registered later.  The model below interleaves
one such waiter with one task calling `set_value 42`; the whole of
`set_inner_value` is taken as a single atomic step, which only removes
interleavings and so makes the model conservative. -/

namespace Conc

/-- Program counter of the waiter running `future()`. -/
inductive WaiterPhase where
| start
| checked
| counted
| listening
| done (r : RResult Nat Unit)
deriving DecidableEq

/-- Interleaved system state: the shared source fields, the event-listener
registration/notification bookkeeping for the waiter's listener, the
waiter's phase, and whether the setter task has run. -/
structure Sys where
fcs : Futures.FutureCompletionSource Nat Unit
listener_registered : Bool
listener_notified : Bool
wphase : WaiterPhase
setter_done : Bool
deriving DecidableEq

/-- Scheduling moves: the waiter's four operations and the setter's single
atomic `set_value 42` call. -/
inductive Move where
| wcheck
| wcount
| wlisten
| wawait
| setter
deriving DecidableEq

/-- Initial state: a fresh source, no listener, waiter about to run
`future()`, setter about to run `set_value 42`. -/
def init : Sys :=
  { fcs := Futures.new Nat Unit, listener_registered := false,
    listener_notified := false, wphase := WaiterPhase.start,
    setter_done := false }

/-- One scheduled step; `none` when the move is not enabled in this state
(wrong phase, waiter still suspended, or setter already run). -/
def step (s : Sys) : Move → Option Sys
| Move.wcheck =>
    match s.wphase with
    | WaiterPhase.start =>
        if s.fcs.completed then
          match s.fcs.value with
          | some r => some { s with wphase := WaiterPhase.done r }
          | none => none
        else
          some { s with wphase := WaiterPhase.checked }
    | _ => none
| Move.wcount =>
    match s.wphase with
    | WaiterPhase.checked =>
        some { s with
          fcs := { s.fcs with awaiting_count := s.fcs.awaiting_count + 1 },
          wphase := WaiterPhase.counted }
    | _ => none
| Move.wlisten =>
    match s.wphase with
    | WaiterPhase.counted =>
        some { s with listener_registered := true, wphase := WaiterPhase.listening }
    | _ => none
| Move.wawait =>
    match s.wphase with
    | WaiterPhase.listening =>
        if s.listener_notified then
          match s.fcs.value with
          | some r => some { s with wphase := WaiterPhase.done r }
          | none => none
        else
          none
    | _ => none
| Move.setter =>
    if s.setter_done then
      none
    else if s.fcs.completed then
      some { s with setter_done := true }
    else
      some { s with
        fcs := { s.fcs with value := some (RResult.ok 42), completed := true },
        listener_notified :=
          s.listener_notified ||
            (s.listener_registered && s.fcs.awaiting_count != 0),
        setter_done := true }

/-- Runs a schedule of moves; `none` when a scheduled move is disabled. -/
def run (s : Sys) : List Move → Option Sys
| [] => some s
| m :: ms => (step s m).bind (fun s2 => run s2 ms)

end Conc

/-- A file state the editor owns: the state produced by
`open_or_change_buffer` on a fresh file with buffer `"editor"` — the live
buffer is present and the analysis source has completed with the
editor-driven result. -/
def editor_owned_file : Ws.FileState Unit :=
  { buffer := some "editor",
    compiled_unit := { completed := true, value := some (RResult.ok ()) } }

/-! # Theorems -/

/-- C2: `is_open_in_ide` is inverted with respect to the specified
`liveBuffer.is_some()` semantics — on a freshly created file (buffer `None`)
it returns `true`, and after `open_or_change_buffer` (buffer `Some`) it
returns `false`; in general it computes `buffer.isNone`, not
`buffer.isSome`. -/
theorem is_open_in_ide_result_inverted :
    Ws.is_open_in_ide (Ws.FileState.new Unit) = true ∧
    (Ws.open_or_change_buffer (Ws.FileState.new Unit) "x" ()).map
        (fun fs => Ws.is_open_in_ide fs) = some false ∧
    (∀ fs : Ws.FileState Unit, Ws.is_open_in_ide fs = fs.buffer.isNone) := by
  refine ⟨by decide, by decide, ?_⟩
  intro fs
  cases h : fs.buffer <;> simp [Ws.is_open_in_ide, h]

/-- C1: at the background worker's re-check, the code publishes exactly when
the live buffer is `Some` — `background_parse` reaches `set_compiled_unit`
for a file the editor owns at publish time (published flag `true`), while a
file that was never opened is skipped at the first check.  This refutes the
claimed discard of background results for editor-owned documents. -/
theorem background_parse_publishes_to_editor_owned_file :
    Ws.open_or_change_buffer (Ws.FileState.new Unit) "editor" ()
      = some editor_owned_file ∧
    Ws.is_open_in_ide editor_owned_file = false ∧
    (Ws.background_parse_step editor_owned_file (some "disk contents") ()
        editor_owned_file).map Prod.fst = some true ∧
    Ws.background_parse_step (Ws.FileState.new Unit) (some "disk contents") ()
        (Ws.FileState.new Unit) = some (false, Ws.FileState.new Unit) := by
  decide

/-- C3: at-most-once completion, for both copies of
`FutureCompletionSource` — on a fresh source the first `set_value`/`set_err`
returns `Ok` and completes it with the given result, and any completion
attempt on an already-completed source returns
`FutureCompletionSourceError::Invalid` and leaves the state (hence the
stored result) unchanged. -/
theorem completion_at_most_once {T E : Type} (v : T) (r : RResult T E) (e : E) :
    (Futures.set_value (Futures.new T E) v).1 = RResult.ok () ∧
    ((Futures.set_value (Futures.new T E) v).2).completed = true ∧
    ((Futures.set_value (Futures.new T E) v).2).value = some (RResult.ok v) ∧
    (Futures.set_err (Futures.new T E) e).1 = RResult.ok () ∧
    ((Futures.set_err (Futures.new T E) e).2).completed = true ∧
    ((Futures.set_err (Futures.new T E) e).2).value = some (RResult.err e) ∧
    (∀ s : Futures.FutureCompletionSource T E, s.completed = true →
      Futures.set_inner_value s r
        = (RResult.err FutureCompletionSourceError.Invalid, s)) ∧
    (FuturesExt.set_value (FuturesExt.new T E) v).1 = RResult.ok () ∧
    ((FuturesExt.set_value (FuturesExt.new T E) v).2).completed = true ∧
    (∀ s : FuturesExt.FutureCompletionSource T E, s.completed = true →
      FuturesExt.set_inner_value s r
        = (RResult.err FutureCompletionSourceError.Invalid, s)) := by
  refine ⟨rfl, rfl, rfl, rfl, rfl, rfl, ?_, rfl, rfl, ?_⟩
  · intro s h
    simp [Futures.set_inner_value, h]
  · intro s h
    simp [FuturesExt.set_inner_value, h]

/-- C3 witness: the first completion of a fresh source succeeds, and a
second completion attempt on the resulting source is rejected unchanged, in
both copies. -/
theorem completion_at_most_once_witness :
    (Futures.set_value (Futures.new Nat Unit) 1).1 = RResult.ok () ∧
    Futures.set_inner_value ((Futures.set_value (Futures.new Nat Unit) 1).2)
        (RResult.ok 2)
      = (RResult.err FutureCompletionSourceError.Invalid,
         (Futures.set_value (Futures.new Nat Unit) 1).2) ∧
    FuturesExt.set_inner_value ((FuturesExt.set_value (FuturesExt.new Nat Unit) 1).2)
        (RResult.ok 2)
      = (RResult.err FutureCompletionSourceError.Invalid,
         (FuturesExt.set_value (FuturesExt.new Nat Unit) 1).2) := by
  have h := @completion_at_most_once Nat Unit 1 (RResult.ok 2) ()
  exact ⟨h.1, h.2.2.2.2.2.2.1 _ (by decide), h.2.2.2.2.2.2.2.2.2 _ (by decide)⟩

/-- C7: `new_with_value v` is immediately completed with `Ok v`, and on any
completed source `future()` takes the fast path, returning the stored result
(value or error) as an `immediate` outcome — no waiter registration, no
suspension. -/
theorem new_with_value_completed_and_fast_path {T E : Type} (v : T) :
    (Futures.new_with_value v : Futures.FutureCompletionSource T E).completed
      = true ∧
    (Futures.new_with_value v : Futures.FutureCompletionSource T E).value
      = some (RResult.ok v) ∧
    Futures.future (Futures.new_with_value v : Futures.FutureCompletionSource T E)
      = some (Futures.FutureOutcome.immediate (RResult.ok v)) ∧
    (∀ (s : Futures.FutureCompletionSource T E) (r : RResult T E),
      s.completed = true → s.value = some r →
      Futures.future s = some (Futures.FutureOutcome.immediate r)) := by
  refine ⟨rfl, rfl, rfl, ?_⟩
  intro s r h hv
  simp [Futures.future, Futures.get_inner_value, h, hv]

/-- C7 witness: `new_with_value 7` resolves synchronously, and a completed
source holding an error also resolves through the fast path. -/
theorem new_with_value_completed_and_fast_path_witness :
    Futures.future (Futures.new_with_value 7 : Futures.FutureCompletionSource Nat Unit)
      = some (Futures.FutureOutcome.immediate (RResult.ok 7)) ∧
    Futures.future
        (Futures.FutureCompletionSource.mk true 0 (some (RResult.err ()))
          : Futures.FutureCompletionSource Nat Unit)
      = some (Futures.FutureOutcome.immediate (RResult.err ())) := by
  have h := @new_with_value_completed_and_fast_path Nat Unit 7
  exact ⟨h.2.2.1, h.2.2.2 _ _ rfl rfl⟩

/-- C8: the code loses a waiter — in the interleaved model of
`futures.rs::future()` racing `set_value`, the schedule `check; complete;
count; listen` drives the system into a terminal state (every move
disabled) in which the source has completed with `Ok 42` but the waiter is
still suspended on its listener: the notification fired before the listener
was registered and is never re-issued. -/
theorem lost_waiter_interleaving :
    ∃ s : Conc.Sys,
      Conc.run Conc.init
          [Conc.Move.wcheck, Conc.Move.setter, Conc.Move.wcount, Conc.Move.wlisten]
        = some s ∧
      s.fcs.completed = true ∧
      s.fcs.value = some (RResult.ok 42) ∧
      s.wphase = Conc.WaiterPhase.listening ∧
      Conc.step s Conc.Move.wcheck = none ∧
      Conc.step s Conc.Move.wcount = none ∧
      Conc.step s Conc.Move.wlisten = none ∧
      Conc.step s Conc.Move.wawait = none ∧
      Conc.step s Conc.Move.setter = none :=
  ⟨{ fcs := { completed := true, awaiting_count := 1, value := some (RResult.ok 42) },
     listener_registered := true, listener_notified := false,
     wphase := Conc.WaiterPhase.listening, setter_done := true }, by decide⟩

/-- C5: from `ActiveUninitialized`, the trigger sequence `initialize,
initialize, initialized, initialized, shutdown, exit` yields the states
`Initializing, Initializing, ActiveInitialized, ActiveInitialized,
ShuttingDown, Stopped`, with the duplicate `initialize` accepted
idempotently, the duplicate `initialized` rejected without a state change,
and `is_active` true in every state of the sequence except the final
`Stopped`. -/
theorem session_trigger_sequence :
    Fsm.run_triggers Fsm.LspServerState.ActiveUninitialized
        ["initialize", "initialize", "initialized", "initialized", "shutdown", "exit"]
      = [(true, Fsm.LspServerState.Initializing),
         (true, Fsm.LspServerState.Initializing),
         (true, Fsm.LspServerState.ActiveInitialized),
         (false, Fsm.LspServerState.ActiveInitialized),
         (true, Fsm.LspServerState.ShuttingDown),
         (true, Fsm.LspServerState.Stopped)] ∧
    Fsm.is_active Fsm.LspServerState.ActiveUninitialized = true ∧
    Fsm.is_active Fsm.LspServerState.Initializing = true ∧
    Fsm.is_active Fsm.LspServerState.ActiveInitialized = true ∧
    Fsm.is_active Fsm.LspServerState.ShuttingDown = true ∧
    Fsm.is_active Fsm.LspServerState.Stopped = false := by
  decide

/-- C4: the publishing rule of `set_compiled_unit` — on a still-pending
source it goes through `set_value` (which succeeds); on a source completed
with a success value it overwrites the held value in place, and a waiter
that begins awaiting (`get_compiled_unit`) after the republish observes the
updated value; on a source completed with an error it installs a fresh
`new_with_value` source already completed with the new success value. -/
theorem set_compiled_unit_mutate_or_replace {T : Type} (fs : Ws.FileState T) (cu : T) :
    (fs.compiled_unit.completed = false →
      Ws.set_compiled_unit fs cu
        = some { fs with compiled_unit := (FuturesExt.set_value fs.compiled_unit cu).2 } ∧
      (FuturesExt.set_value fs.compiled_unit cu).1 = RResult.ok ()) ∧
    (∀ v : T, fs.compiled_unit.completed = true →
      fs.compiled_unit.value = some (RResult.ok v) →
      Ws.set_compiled_unit fs cu
        = some { fs with compiled_unit :=
            { fs.compiled_unit with value := some (RResult.ok cu) } } ∧
      (∀ fs2 : Ws.FileState T, Ws.set_compiled_unit fs cu = some fs2 →
        Ws.get_compiled_unit fs2
          = some (FuturesExt.FutureOutcome.immediate (RResult.ok cu)))) ∧
    (∀ e : Ws.IndexError, fs.compiled_unit.completed = true →
      fs.compiled_unit.value = some (RResult.err e) →
      Ws.set_compiled_unit fs cu
        = some { fs with compiled_unit := FuturesExt.new_with_value cu } ∧
      (FuturesExt.new_with_value cu
          : FuturesExt.FutureCompletionSource T Ws.IndexError).completed = true ∧
      (FuturesExt.new_with_value cu
          : FuturesExt.FutureCompletionSource T Ws.IndexError).value
        = some (RResult.ok cu)) := by
  refine ⟨?_, ?_, ?_⟩
  · intro h
    constructor
    · simp [Ws.set_compiled_unit, FuturesExt.state, FuturesExt.set_value,
        FuturesExt.set_inner_value, h]
    · simp [FuturesExt.set_value, FuturesExt.set_inner_value, h]
  · intro v h hv
    have hset : Ws.set_compiled_unit fs cu
        = some { fs with compiled_unit :=
            { fs.compiled_unit with value := some (RResult.ok cu) } } := by
      simp [Ws.set_compiled_unit, FuturesExt.state, h, hv]
    refine ⟨hset, ?_⟩
    intro fs2 h2
    rw [hset] at h2
    cases h2
    simp [Ws.get_compiled_unit, FuturesExt.future, FuturesExt.get_inner_value, h]
  · intro e h hv
    refine ⟨?_, rfl, rfl⟩
    simp [Ws.set_compiled_unit, FuturesExt.state, h, hv]

/-- C4 witness: republishing `5` over a source completed with `Ok 3` mutates
the held value in place (a subsequent awaiter sees `Ok 5`), and republishing
over a source completed with `Err Unexpected` installs a fresh
already-completed source holding `Ok 5`. -/
theorem set_compiled_unit_mutate_or_replace_witness :
    Ws.set_compiled_unit
        ({ buffer := none,
           compiled_unit := { completed := true, value := some (RResult.ok 3) } }
          : Ws.FileState Nat) 5
      = some { buffer := none,
               compiled_unit := { completed := true, value := some (RResult.ok 5) } } ∧
    Ws.get_compiled_unit
        ({ buffer := none,
           compiled_unit := { completed := true, value := some (RResult.ok 5) } }
          : Ws.FileState Nat)
      = some (FuturesExt.FutureOutcome.immediate (RResult.ok 5)) ∧
    Ws.set_compiled_unit
        ({ buffer := none,
           compiled_unit :=
             { completed := true, value := some (RResult.err Ws.IndexError.Unexpected) } }
          : Ws.FileState Nat) 5
      = some { buffer := none, compiled_unit := FuturesExt.new_with_value 5 } := by
  have hok := (@set_compiled_unit_mutate_or_replace Nat
    { buffer := none,
      compiled_unit := { completed := true, value := some (RResult.ok 3) } } 5).2.1
    3 rfl rfl
  have herr := (@set_compiled_unit_mutate_or_replace Nat
    { buffer := none,
      compiled_unit :=
        { completed := true, value := some (RResult.err Ws.IndexError.Unexpected) } } 5).2.2
    Ws.IndexError.Unexpected rfl rfl
  exact ⟨hok.1, hok.2 _ hok.1, herr.1⟩

/-- C6 counterexample: with the single folder rooted at `/a` and the query
`/c/x`, no folder root is a path-prefix ancestor of the URI — so the claim
demands the fatal routing path — yet `get_file` resolves to that folder:
`make_relative` drops the root's final segment, leaving the directory `/`,
which accepts every URI. -/
theorem workspace_routing_counterexample :
    Ws.spec_root_is_ancestor ["a"] ["c", "x"] = false ∧
    Ws.WorkspaceManager.get_file
        (Ws.WorkspaceManager.new (some [{ name := "f1", uri := ["a"] }]))
        ["c", "x"]
      = some { name := "f1", uri := ["a"] } := by
  decide

/-- C6 (amended): workspace routing under the code's `make_relative`-based
descendant test (root with its final segment dropped is a segment-prefix of
the URI with its final segment dropped) — with explicit folders, `get_file`
resolves a URI to the unique folder passing that test when exactly one
does, and hits the fatal `unreachable!` path (`none`) exactly when every
folder fails it; with no folders, every URI resolves to the single
catch-all workspace. -/
theorem workspace_routing :
    (∀ (folders : List Ws.WorkspaceFolder) (f : Ws.WorkspaceFolder) (uri : Ws.Uri),
      f ∈ folders →
      Ws.is_descendant_path f.uri uri = true →
      (∀ g ∈ folders, Ws.is_descendant_path g.uri uri = true → g = f) →
      Ws.WorkspaceManager.get_file (Ws.WorkspaceManager.new (some folders)) uri
        = some f) ∧
    (∀ (folders : List Ws.WorkspaceFolder) (uri : Ws.Uri),
      (∀ g ∈ folders, Ws.is_descendant_path g.uri uri = false) →
      Ws.WorkspaceManager.get_file (Ws.WorkspaceManager.new (some folders)) uri
        = none) ∧
    (∀ uri : Ws.Uri,
      Ws.WorkspaceManager.get_file (Ws.WorkspaceManager.new none) uri
        = some { name := "<*>", uri := [] }) := by
  refine ⟨?_, ?_, ?_⟩
  · intro folders f uri hmem hdesc huniq
    induction folders with
    | nil => cases hmem
    | cons hd tl ih =>
        simp only [Ws.WorkspaceManager.new, Ws.WorkspaceManager.get_file,
          List.map_cons] at ih ⊢
        by_cases hp : Ws.is_descendant_path hd.uri uri = true
        · have hf : hd = f := huniq hd (List.mem_cons_self hd tl) hp
          subst hf
          simp [List.find?_cons, hp]
        · have hpf : Ws.is_descendant_path hd.uri uri = false := by
            simpa using hp
          rcases List.mem_cons.mp hmem with rfl | hmem2
          · exact absurd hdesc hp
          · have hres := ih hmem2
              (fun g hg hgd => huniq g (List.mem_cons_of_mem hd hg) hgd)
            simpa [List.find?_cons, hpf] using hres
  · intro folders uri hnone
    induction folders with
    | nil => rfl
    | cons hd tl ih =>
        simp only [Ws.WorkspaceManager.new, Ws.WorkspaceManager.get_file,
          List.map_cons] at ih ⊢
        have hpf : Ws.is_descendant_path hd.uri uri = false :=
          hnone hd (List.mem_cons_self hd tl)
        have hres := ih (fun g hg => hnone g (List.mem_cons_of_mem hd hg))
        simpa [List.find?_cons, hpf] using hres
  · intro uri
    simp [Ws.WorkspaceManager.new, Ws.WorkspaceManager.get_file,
      Ws.is_descendant_path, Ws.seg_prefix]

/-- C6 witness: for folders `{a/b, c/d}`, the URI `a/b/x` passes the
descendant test only for the folder rooted at `a/b` and resolves to it, the
URI `z/w` fails the test for both folders and hits the fatal path, and with
no folders the URI `z` resolves to the catch-all. -/
theorem workspace_routing_witness :
    Ws.WorkspaceManager.get_file
        (Ws.WorkspaceManager.new
          (some [{ name := "f1", uri := ["a", "b"] },
                 { name := "f2", uri := ["c", "d"] }]))
        ["a", "b", "x"]
      = some { name := "f1", uri := ["a", "b"] } ∧
    Ws.WorkspaceManager.get_file
        (Ws.WorkspaceManager.new
          (some [{ name := "f1", uri := ["a", "b"] },
                 { name := "f2", uri := ["c", "d"] }]))
        ["z", "w"]
      = none ∧
    Ws.WorkspaceManager.get_file (Ws.WorkspaceManager.new none) ["z"]
      = some { name := "<*>", uri := [] } := by
  have h := workspace_routing
  exact ⟨h.1 _ _ _ (by decide) (by decide) (by decide),
         h.2.1 _ _ (by decide), h.2.2 ["z"]⟩

/-- C9: for every source reachable through the public operations of either
copy of `FutureCompletionSource`, a raised `completed` flag implies the
value cell is populated, so the `unwrap` inside `get_inner_value` (reached
by `future()` only behind the completed check) cannot panic: `future` never
returns the panic outcome `none`. -/
theorem completed_implies_value_present {T E : Type} :
    (∀ s : Futures.FutureCompletionSource T E, Futures.Reachable s →
      (s.completed = true → (Futures.get_inner_value s).isSome = true) ∧
      Futures.future s ≠ none) ∧
    (∀ s : FuturesExt.FutureCompletionSource T E, FuturesExt.Reachable s →
      (s.completed = true → (FuturesExt.get_inner_value s).isSome = true) ∧
      FuturesExt.future s ≠ none) := by
  constructor
  · intro s hs
    have key : s.completed = true → s.value.isSome = true := by
      induction hs with
      | new => simp [Futures.new]
      | new_with_value v => simp [Futures.new_with_value]
      | set s r hr ih =>
          by_cases hc : s.completed = true
          · simpa [Futures.set_inner_value, hc] using ih
          · simp [Futures.set_inner_value, hc]
      | future_suspend s s2 hr hf ih =>
          by_cases hc : s.completed = true
          · exfalso
            cases hv : s.value <;>
              simp [Futures.future, Futures.get_inner_value, hc, hv] at hf
          · simp [Futures.future, hc] at hf
            subst hf
            simp
    refine ⟨fun h => by simpa [Futures.get_inner_value] using key h, ?_⟩
    by_cases hc : s.completed = true
    · have hv := key hc
      rw [Option.isSome_iff_exists] at hv
      obtain ⟨r, hr⟩ := hv
      simp [Futures.future, Futures.get_inner_value, hc, hr]
    · simp [Futures.future, hc]
  · intro s hs
    have key : s.completed = true → s.value.isSome = true := by
      induction hs with
      | new => simp [FuturesExt.new]
      | new_with_value v => simp [FuturesExt.new_with_value]
      | set s r hr ih =>
          by_cases hc : s.completed = true
          · simpa [FuturesExt.set_inner_value, hc] using ih
          · simp [FuturesExt.set_inner_value, hc]
      | future_suspend s s2 hr hf ih =>
          by_cases hc : s.completed = true
          · exfalso
            cases hv : s.value <;>
              simp [FuturesExt.future, FuturesExt.get_inner_value, hc, hv] at hf
          · simp [FuturesExt.future, hc] at hf
            subst hf
            simpa using ih
    refine ⟨fun h => by simpa [FuturesExt.get_inner_value] using key h, ?_⟩
    by_cases hc : s.completed = true
    · have hv := key hc
      rw [Option.isSome_iff_exists] at hv
      obtain ⟨r, hr⟩ := hv
      simp [FuturesExt.future, FuturesExt.get_inner_value, hc, hr]
    · simp [FuturesExt.future, hc]

/-- C9 witness: on the concrete reachable states obtained by completing a
fresh source with `3` (futures.rs copy) and by `new_with_value 4`
(futures_extensions.rs copy), the completed value cell is populated and
`future` does not panic. -/
theorem completed_implies_value_present_witness :
    (Futures.get_inner_value ((Futures.set_value (Futures.new Nat Unit) 3).2)).isSome
      = true ∧
    FuturesExt.future
        (FuturesExt.new_with_value 4 : FuturesExt.FutureCompletionSource Nat Unit)
      ≠ none := by
  have h := @completed_implies_value_present Nat Unit
  exact ⟨(h.1 _ (Futures.Reachable.set _ _ Futures.Reachable.new)).1 (by decide),
         (h.2 _ (FuturesExt.Reachable.new_with_value 4)).2⟩

/-- C10: `on_watched_file_change` never panics on the change-type match when
every event's type is `CREATED` (1), `CHANGED` (2) or `DELETED` (3), and
reaches the `panic!` arm (`none`) for any event carrying any other change
type. -/
theorem watched_file_change_panic_condition :
    (∀ events : List Watch.FileEvent,
      (∀ e ∈ events, e.typ = 1 ∨ e.typ = 2 ∨ e.typ = 3) →
      (Watch.on_watched_file_change events).isSome = true) ∧
    (∀ (u : Ws.Uri) (n : Nat), n ≠ 1 → n ≠ 2 → n ≠ 3 →
      Watch.on_watched_file_change [{ uri := u, typ := n }] = none) := by
  constructor
  · intro events h
    induction events with
    | nil => rfl
    | cons e es ih =>
        have he := h e (List.mem_cons_self e es)
        have ihs := ih (fun x hx => h x (List.mem_cons_of_mem e hx))
        rw [Option.isSome_iff_exists] at ihs
        obtain ⟨l, hl⟩ := ihs
        rcases he with h1 | h1 | h1 <;>
          simp [Watch.on_watched_file_change, Watch.watched_event_action, h1, hl]
  · intro u n h1 h2 h3
    simp [Watch.on_watched_file_change, Watch.watched_event_action, h1, h2, h3]

/-- C10 witness: a batch of events with types 1, 2 and 3 is handled without
panicking, and a single event of type 4 hits the panic arm. -/
theorem watched_file_change_panic_condition_witness :
    (Watch.on_watched_file_change
        [⟨[], 1⟩, ⟨[], 2⟩, ⟨[], 3⟩]).isSome = true ∧
    Watch.on_watched_file_change [⟨[], 4⟩] = none := by
  have h := watched_file_change_panic_condition
  exact ⟨h.1 _ (by decide), h.2 [] 4 (by decide) (by decide) (by decide)⟩

end P4A
